import Mathlib

/-!
# Verification of the OnlineJobSerach repository

A shallow embedding, in Lean 4, of the career-page discovery and
job-extraction pipeline of the repository (files `config.py`,
`utils.py`, `search_engine.py`, `web_scraper.py`, `llm_manager.py`,
`job_extractor.py`, `agent.py`), together with theorems settling the
frozen claims about the natural-language specification.

Conventions of the embedding:
* Python strings are Lean `String`s; character-level operations work on
  `String.data` (the list of characters).
* Python dictionaries whose key sets vary at runtime are association
  lists `List (String × PyVal)`; indexing (`d[k]`) is a fallible
  operation returning `Except PyErr`, mirroring Python's `KeyError`.
* Fallible code returns `Except PyErr` or `Option`.
* External effects (HTTP requests via `requests`, Google search via
  `googlesearch`, HTML parsing via `BeautifulSoup`, and the standard
  library's `json.loads` / `re.search`) are supplied as explicit oracle
  parameters (`Net`, `PyLibs`); everything written in the repository
  itself is translated directly from the source.
* The two LLM backends of `llm_manager.py` are mock implementations in
  the source (they return fixed format strings and never touch the
  network), so they are embedded as the total functions they are.
-/

/-! ## Python character and string primitives -/

/-- The whitespace characters recognised by Python's `str.split()` /
`str.strip()` for ASCII text: space, tab, newline, carriage return,
vertical tab, form feed. -/
def pyIsSpace (c : Char) : Bool :=
  c = ' ' ∨ c = '\t' ∨ c = '\n' ∨ c = '\r' ∨ c = '\x0b' ∨ c = '\x0c'

/-- ASCII lowercasing of a single character, as Python's `str.lower()`
acts on the ASCII range. -/
def pyCharLower (c : Char) : Char :=
  if 65 ≤ c.toNat ∧ c.toNat ≤ 90 then Char.ofNat (c.toNat + 32) else c

/-- `s.lower()` on ASCII text. -/
def pyLower (s : String) : String :=
  ⟨s.data.map pyCharLower⟩

/-- `s.strip()`: remove leading and trailing whitespace. -/
def pyStrip (s : String) : String :=
  ⟨((s.data.dropWhile pyIsSpace).reverse.dropWhile pyIsSpace).reverse⟩

/-- An ASCII uppercase letter (codepoint in `[65, 90]`). -/
def isUpperAscii (c : Char) : Prop :=
  65 ≤ c.toNat ∧ c.toNat ≤ 90

instance (c : Char) : Decidable (isUpperAscii c) := by
  unfold isUpperAscii
  infer_instance

/-- Python's substring test `needle in hay` on character lists. -/
def containsSub (needle : List Char) : List Char → Bool
  | [] => needle.isPrefixOf []
  | c :: rest => needle.isPrefixOf (c :: rest) || containsSub needle rest

/-- Python's substring test `needle in hay` on strings. -/
def pyInStr (needle hay : String) : Bool :=
  containsSub needle.data hay.data

/-- Python's non-overlapping occurrence count `hay.count(needle)`, with
explicit recursion fuel (one unit per remaining character suffices,
since every step consumes at least one character). -/
def countSubF (needle : List Char) : Nat → List Char → Nat
  | _, [] => 0
  | 0, _ => 0
  | fuel + 1, c :: rest =>
    if needle ≠ [] ∧ needle.isPrefixOf (c :: rest) then
      1 + countSubF needle fuel ((c :: rest).drop needle.length)
    else
      countSubF needle fuel rest

/-- `hay.count(needle)` on strings. -/
def pyCount (needle hay : String) : Nat :=
  countSubF needle.data hay.data.length hay.data

/-- Python's `s.split(sep)` for a non-empty separator, with explicit
recursion fuel.  Always returns at least one segment. -/
def pySplitOnF (sep : List Char) : Nat → List Char → List (List Char)
  | _, [] => [[]]
  | 0, l => [l]
  | fuel + 1, c :: rest =>
    if sep ≠ [] ∧ sep.isPrefixOf (c :: rest) then
      [] :: pySplitOnF sep fuel ((c :: rest).drop sep.length)
    else
      match pySplitOnF sep fuel rest with
      | [] => [[c]]
      | w :: ws => (c :: w) :: ws

/-- `s.split(sep)` on character lists. -/
def pySplitOn (sep l : List Char) : List (List Char) :=
  pySplitOnF sep l.length l

/-- `s.split(sep)` on strings. -/
def pySplitStr (sep s : String) : List String :=
  (pySplitOn sep.data s.data).map (fun l => ⟨l⟩)

/-- The accumulator pass behind Python's whitespace `s.split()` (no
argument): collect the maximal runs of non-whitespace characters,
building the current run in reverse in `acc`. -/
def wordsAux : List Char → List Char → List (List Char)
  | [], acc => if acc.isEmpty then [] else [acc.reverse]
  | c :: rest, acc =>
    if pyIsSpace c then
      if acc.isEmpty then wordsAux rest [] else acc.reverse :: wordsAux rest []
    else wordsAux rest (c :: acc)

/-- Python's whitespace `s.split()` (no argument). -/
def pyWords (l : List Char) : List (List Char) :=
  wordsAux l []

/-- Python's `sep.join(parts)` on character lists. -/
def pyJoinChars (sep : List Char) : List (List Char) → List Char
  | [] => []
  | [w] => w
  | w :: w' :: ws => w ++ sep ++ pyJoinChars sep (w' :: ws)

/-- `' '.join(text.split())`, the normalisation step shared by both
`clean_text` functions. -/
def pyJoinSplit (s : String) : String :=
  ⟨pyJoinChars [' '] (pyWords s.data)⟩

/-- Python string-removal `s.replace(c, "")` for a one-character
pattern: drop every occurrence of the character. -/
def removeChar (c : Char) (s : String) : String :=
  ⟨s.data.filter (fun ch => ch ≠ c)⟩

/-- Truthiness of a Python string: non-empty. -/
def pyTruthyStr (s : String) : Bool :=
  ¬ s.data.isEmpty

/-- Python's `s.startswith(pre)`. -/
def pyStartsWithStr (s pre : String) : Bool :=
  pre.data.isPrefixOf s.data

/-- Python's character slice `s[:n]`. -/
def pyTake (s : String) (n : Nat) : String :=
  ⟨s.data.take n⟩

/-! ## Python values, dictionaries and exceptions -/

/-- A Python value stored in a listing dictionary: a string, an
integer, or `None`. -/
inductive PyVal where
  | str (s : String)
  | int (n : Int)
  | nil
deriving DecidableEq, Repr

/-- A Python dictionary with string keys, as an association list (keys
are unique in every dictionary the program builds). -/
abbrev Dict := List (String × PyVal)

/-- A Python exception raised by the embedded code. -/
inductive PyErr where
  | valueError (msg : String)
  | runtimeError (msg : String)
  | keyError (key : String)
  | attributeError (msg : String)
deriving DecidableEq, Repr

/-- `d.get(k)`: `None`-defaulting dictionary access. -/
def Dict.getval (d : Dict) (k : String) : Option PyVal :=
  d.lookup k

/-- `d.get(k, default)`. -/
def Dict.getD (d : Dict) (k : String) (default : PyVal) : PyVal :=
  (d.lookup k).getD default

/-- `d[k]`: dictionary indexing, raising `KeyError` when absent. -/
def Dict.item (d : Dict) (k : String) : Except PyErr PyVal :=
  match d.lookup k with
  | some v => .ok v
  | none => .error (.keyError k)

/-- Truthiness of a Python value (`if v:`). -/
def pyTruthyVal : PyVal → Bool
  | .str s => ¬ s.data.isEmpty
  | .int n => n ≠ 0
  | .nil => false

/-- `str(v)`, as used by f-string interpolation. -/
def pyValStr : PyVal → String
  | .str s => s
  | .int n => toString n
  | .nil => "None"

/-- Python's `a or b` on values. -/
def pyOr (a b : PyVal) : PyVal :=
  if pyTruthyVal a then a else b

/-- Truthiness of an optional string (`if api_key:` with `None` or a
string): false for `None` and for the empty string. -/
def pyFalsyOptStr (s : Option String) : Bool :=
  match s with
  | none => true
  | some s => s.data.isEmpty

/-! ## `llm_manager.py` -/

/-- One entry of the `FREE_MODELS` table of `llm_manager.py`. -/
structure ModelInfo where
  requires_api_key : Bool
  max_tokens : Nat
  description : String
deriving DecidableEq, Repr

/-- The `FREE_MODELS` dictionary of `llm_manager.py`. -/
def FREE_MODELS : List (String × ModelInfo) :=
  [("huggingface/gpt2", ⟨false, 1024, "HuggingFace's GPT-2 model"⟩),
   ("huggingface/distilbert", ⟨false, 512, "HuggingFace's DistilBERT model"⟩),
   ("huggingface/t5-small", ⟨false, 512, "HuggingFace's T5-small model"⟩),
   ("huggingface/roberta-base", ⟨false, 512, "HuggingFace's RoBERTa model"⟩),
   ("openai/gpt-3.5-turbo", ⟨true, 4096, "OpenAI's GPT-3.5 Turbo model (requires API key)"⟩)]

/-- `llm_manager.is_api_key_required`. -/
def is_api_key_required (model_name : String) : Bool :=
  match FREE_MODELS.lookup model_name with
  | some info => info.requires_api_key
  | none => false

/-- `llm_manager._query_huggingface`.  The body is mock code: it builds
no request and returns a fixed format string (the `try` block cannot
raise). -/
def query_huggingface (model_name : String) (_prompt : String) (_max_tokens : Nat) : String :=
  "[HuggingFace " ++ model_name ++ " response: Processed job data based on the prompt]"

/-- `llm_manager._query_openai`.  Mock code, same as the HuggingFace
backend. -/
def query_openai (model_name : String) (_prompt : String) (_api_key : Option String)
    (_max_tokens : Nat) : String :=
  "[OpenAI " ++ model_name ++ " response: Processed job data based on the prompt]"

/-- A record of one backend invocation made by `query_model`, used to
state that configuration errors are raised before any backend call. -/
inductive BackendCall where
  | hf (model_name prompt : String)
  | openai (model_name prompt : String)
deriving DecidableEq, Repr

/-- `model_name.split("/")[1]`, as used by the dispatch in
`query_model` (defined for the guarded case where `/` occurs). -/
def modelSuffix (model_name : String) : String :=
  ((pySplitStr "/" model_name).drop 1).headD ""

/-- `llm_manager.query_model`, instrumented with the list of backend
calls it performs.  The result component follows the source exactly:
a `ValueError` when the model requires an API key and none is given,
dispatch on the `huggingface/` / `openai/` prefix, and a `ValueError`
for any other model identifier. -/
def query_modelT (model_name prompt : String) (api_key : Option String)
    (max_tokens : Nat) : Except PyErr String × List BackendCall :=
  if is_api_key_required model_name ∧ pyFalsyOptStr api_key then
    (.error (.valueError ("Model " ++ model_name ++ " requires an API key")), [])
  else if pyStartsWithStr model_name "huggingface/" then
    (.ok (query_huggingface (modelSuffix model_name) prompt max_tokens),
     [.hf (modelSuffix model_name) prompt])
  else if pyStartsWithStr model_name "openai/" then
    (.ok (query_openai (modelSuffix model_name) prompt api_key max_tokens),
     [.openai (modelSuffix model_name) prompt])
  else
    (.error (.valueError ("Unsupported model: " ++ model_name)), [])

/-- `llm_manager.query_model`: the returned text or raised exception. -/
def query_model (model_name prompt : String) (api_key : Option String)
    (max_tokens : Nat := 100) : Except PyErr String :=
  (query_modelT model_name prompt api_key max_tokens).1

/-! ## `config.py` -/

/-- The `CAREER_PAGE_PATTERNS` table of `config.py`: nine URL
templates, each a function of the cleaned company slug (Python stores
them as `str.format` templates). -/
def CAREER_PAGE_PATTERNS : List (String → String) :=
  [fun c => c ++ ".com/careers",
   fun c => c ++ ".com/jobs",
   fun c => c ++ ".com/work-with-us",
   fun c => c ++ ".com/join-us",
   fun c => c ++ ".com/employment",
   fun c => c ++ ".com/about/careers",
   fun c => c ++ ".com/about/jobs",
   fun c => "careers." ++ c ++ ".com",
   fun c => "jobs." ++ c ++ ".com"]

/-- The slug used by `config.construct_career_urls`:
`company_name.lower().replace(" ", "")` (only spaces removed). -/
def configSlug (company_name : String) : String :=
  removeChar ' ' (pyLower company_name)

/-- `config.construct_career_urls`. -/
def construct_career_urls (company_name : String) : List String :=
  let c := configSlug company_name
  CAREER_PAGE_PATTERNS.map (fun pat =>
    let url := pat c
    if pyStartsWithStr url "http" then url else "https://" ++ url)

/-- `config.clean_text`. -/
def config_clean_text (text : String) : String :=
  if ¬ pyTruthyStr text then "" else pyJoinSplit text

/-! ## `utils.py` -/

/-- `utils.clean_text`. -/
def utils_clean_text (text : String) : String :=
  if ¬ pyTruthyStr text then "" else pyJoinSplit text

/-- The first three steps of `utils.extract_domain`:
`url.split('://')[-1]`, then `.split('/')[0]`, then `.split(':')[0]`
(taking the first segment of a split equals taking characters up to
the first separator). -/
def rawDomainChars (url : String) : List Char :=
  ((((pySplitOn "://".data url.data).getLastD []).takeWhile
    (fun c => c ≠ '/')).takeWhile (fun c => c ≠ ':'))

/-- `utils.extract_domain`.  The `try` body performs the three splits
and strips a single leading `www.`; none of these operations can
raise. -/
def extract_domain (url : String) : Option String :=
  if ¬ pyTruthyStr url then none
  else
    let domain2 := rawDomainChars url
    if "www.".data.isPrefixOf domain2 then some ⟨domain2.drop 4⟩ else some ⟨domain2⟩

/-- `utils.format_job_listing_for_export`, one listing: the seven
exported columns, each defaulting to the empty string. -/
def formatOneListing (listing : Dict) : Dict :=
  [("Title", listing.getD "title" (.str "")),
   ("Company", listing.getD "company" (.str "")),
   ("Location", listing.getD "location" (.str "")),
   ("Description", listing.getD "description" (.str "")),
   ("Requirements", listing.getD "requirements" (.str "")),
   ("Experience Level", listing.getD "experience_level" (.str "")),
   ("URL", listing.getD "url" (.str ""))]

/-- `utils.format_job_listing_for_export`: the `job_listings` value of
the returned dictionary. -/
def format_job_listing_for_export (listings : List Dict) : List Dict :=
  listings.map formatOneListing

/-! ## Network and library oracles -/

/-- The BeautifulSoup view of a fetched HTML document: the pieces of
parser output that `search_engine.py` inspects.  `titleText` is
`soup.title`'s text when a `<title>` element exists; `fullText` is
`soup.get_text()`; `hasForms` records whether `soup.find_all('form')`
is non-empty; `hasJobClassedContainer` records whether the
`find_all(["table", "ul", "div"], class_=...)` query of
`is_career_page_content` matches anything. -/
structure Page where
  titleText : Option String
  fullText : String
  hasForms : Bool
  hasJobClassedContainer : Bool

/-- The external world: HTTP requests, the Google search library, and
the HTML parser.  `headStatus url` is the status code of
`requests.head(url)` (`none` models a raised `RequestException`);
`getRaw url` is `(status_code, response.text)` of `requests.get(url)`
(`none` models a raised exception); `googleResults query` is the
result iterator of `googlesearch.search(query, ...)`; `soup html` is
`BeautifulSoup(html, 'html.parser')` reduced to the fields the code
reads. -/
structure Net where
  headStatus : String → Option Nat
  getRaw : String → Option (Nat × String)
  googleResults : String → List String
  soup : String → Page

/-! ## `search_engine.py` -/

/-- The slug shared by `_direct_url_construction` and
`_extract_company_domain`:
`company_name.lower().replace(" ", "").replace(",", "").replace(".", "")`. -/
def searchSlug (company_name : String) : String :=
  removeChar '.' (removeChar ',' (removeChar ' ' (pyLower company_name)))

/-- `search_engine._extract_company_domain`. -/
def extract_company_domain (company_name : String) : String :=
  searchSlug company_name

/-- The six URL patterns tried by
`search_engine._direct_url_construction`. -/
def directPatterns (company_name : String) : List String :=
  let clean_name := searchSlug company_name
  ["https://" ++ clean_name ++ ".com/careers",
   "https://" ++ clean_name ++ ".com/jobs",
   "https://www." ++ clean_name ++ ".com/careers",
   "https://www." ++ clean_name ++ ".com/jobs",
   "https://" ++ clean_name ++ ".com/about/careers",
   "https://careers." ++ clean_name ++ ".com"]

/-- The pattern loop of `_direct_url_construction`: return the first
URL whose `requests.head` status is `< 400`; a raised
`RequestException` (`none`) continues with the next pattern. -/
def directUrlLoop (net : Net) : List String → Option String
  | [] => none
  | url :: rest =>
    match net.headStatus url with
    | some status => if status < 400 then some url else directUrlLoop net rest
    | none => directUrlLoop net rest

/-- `search_engine._direct_url_construction`. -/
def direct_url_construction (net : Net) (company_name : String) : Option String :=
  directUrlLoop net (directPatterns company_name)

/-- The keyword tables of `search_engine.py`. -/
def skipSites : List String :=
  ["linkedin", "glassdoor", "indeed", "facebook", "twitter"]

/-- URL keywords checked by `_google_search` (also used for the title
check of `is_career_page_content`, which uses the same six terms). -/
def urlCareerTerms : List String :=
  ["career", "job", "employ", "work", "join", "apply"]

/-- Content keywords of `is_career_page_content`. -/
def contentCareerTerms : List String :=
  ["career", "job", "position", "opening", "vacancy", "apply", "join our team", "work with us"]

/-- The four terms counted by `is_career_page_content`. -/
def countedTerms : List String :=
  ["job", "career", "position", "apply"]

/-- Keywords of `validate_career_page`. -/
def validateJobKeywords : List String :=
  ["job", "career", "position", "opening", "vacancy", "employment", "hiring", "apply"]

/-- `search_engine.is_career_page_content`: fetch the page, give up on
any exception or non-2xx/3xx status (`raise_for_status`), then run the
title check, the counted-terms check, the form check and the
job-classed-container check in order. -/
def is_career_page_content (net : Net) (url : String) : Bool :=
  match net.getRaw url with
  | none => false
  | some (status, text) =>
    if 400 ≤ status then false
    else
      let page := net.soup text
      let titleHit :=
        match page.titleText with
        | some t => urlCareerTerms.any (fun term => pyInStr term (pyLower t))
        | none => false
      if titleHit then true
      else
        let content_text := pyLower page.fullText
        let countHit :=
          if contentCareerTerms.any (fun term => pyInStr term content_text) then
            3 ≤ (countedTerms.map (fun term => pyCount term content_text)).sum
          else false
        if countHit then true
        else if page.hasForms ∧
            (["apply", "submit", "application"].any (fun term => pyInStr term content_text)) then
          true
        else if page.hasJobClassedContainer then true
        else false

/-- `search_engine.validate_career_page`. -/
def validate_career_page (net : Net) (url : String) : Bool :=
  match net.getRaw url with
  | none => false
  | some (status, text) =>
    if 400 ≤ status then false
    else
      let page_text := pyLower (net.soup text).fullText
      validateJobKeywords.any (fun keyword => pyInStr keyword page_text)

/-- The inner result loop of `_google_search` for one query's result
list. -/
def googleResultLoop (net : Net) (company_name : String) : List String → Option String
  | [] => none
  | url :: rest =>
    if skipSites.any (fun site => pyInStr site (pyLower url)) then
      googleResultLoop net company_name rest
    else if urlCareerTerms.any (fun keyword => pyInStr keyword (pyLower url)) then
      some url
    else
      let company_domain := extract_company_domain company_name
      if pyTruthyStr company_domain ∧ pyInStr company_domain (pyLower url) then
        if is_career_page_content net url then some url
        else googleResultLoop net company_name rest
      else googleResultLoop net company_name rest

/-- The query loop of `_google_search`. -/
def googleQueryLoop (net : Net) (company_name : String) : List String → Option String
  | [] => none
  | query :: rest =>
    match googleResultLoop net company_name (net.googleResults query) with
    | some url => some url
    | none => googleQueryLoop net company_name rest

/-- `search_engine._google_search` (the model name and API key
arguments are unused by the source). -/
def google_search (net : Net) (company_name : String) : Option String :=
  googleQueryLoop net company_name
    [company_name ++ " careers",
     company_name ++ " jobs",
     company_name ++ " career opportunities",
     company_name ++ " careers apply"]

/-- The free-text prompt of `_llm_based_search`. -/
def llmSearchPrompt (company_name : String) : String :=
  "\n    What is the most likely URL for the careers or jobs page of " ++ company_name ++
  "?\n    Please provide only the full URL without any additional text or explanation.\n    "

/-- `search_engine._llm_based_search`: ask `query_model` for a URL
(an exception returns `None`), strip it, require an `http://` or
`https://` scheme, and accept it only when a `requests.head` probe
answers with a status `< 400`. -/
def llm_based_search (net : Net) (company_name model_name : String)
    (api_key : Option String) : Option String :=
  match query_model model_name (llmSearchPrompt company_name) api_key with
  | .error _ => none
  | .ok response =>
    let url := pyStrip response
    if pyStartsWithStr url "http://" ∨ pyStartsWithStr url "https://" then
      match net.headStatus url with
      | some status => if status < 400 then some url else none
      | none => none
    else none

/-- The method loop of `find_career_page`: each strategy's result is
accepted only when truthy and validated by `validate_career_page`;
otherwise the next strategy runs. -/
def findCareerLoop (net : Net) : List (Option String) → Option String
  | [] => none
  | result :: rest =>
    match result with
    | some url =>
      if pyTruthyStr url then
        if validate_career_page net url then some url else findCareerLoop net rest
      else findCareerLoop net rest
    | none => findCareerLoop net rest

/-- `search_engine.find_career_page`: the strategies run in the
source's order `[_google_search, _direct_url_construction,
_llm_based_search]`. -/
def find_career_page (net : Net) (company_name model_name : String)
    (api_key : Option String) : Option String :=
  findCareerLoop net
    [google_search net company_name,
     direct_url_construction net company_name,
     llm_based_search net company_name model_name api_key]

/-! ## `web_scraper.py` -/

/-- `WebScraper.fetch_page`: `(status_code, content)`, both `None`
when `requests.get` raised. -/
def fetch_page (net : Net) (url : String) : Option Nat × Option String :=
  match net.getRaw url with
  | some (status, text) => (some status, some text)
  | none => (none, none)

/-- The URL loop of `WebScraper.test_career_urls`: first URL whose
fetched status code is exactly `200`. -/
def testUrlsLoop (net : Net) : List String → Option String
  | [] => none
  | url :: rest =>
    if (fetch_page net url).1 = some 200 then some url
    else testUrlsLoop net rest

/-- `WebScraper.test_career_urls`: try `config.construct_career_urls`
in order. -/
def test_career_urls (net : Net) (company_name : String) : Option String :=
  testUrlsLoop net (construct_career_urls company_name)

/-! ## `job_extractor.py` -/

/-- A raw listing as produced by `_extract_raw_listings`: that
function always populates the four keys `title`, `url`, `content`,
`html` (the `url` value may be Python `None`). -/
structure RawListing where
  title : String
  url : Option String
  content : String
  html : String
deriving DecidableEq, Repr

/-- The result of the standard library's `json.loads`: a JSON object
(a dictionary), or any non-object JSON value (on which the subsequent
`.get` attribute access raises). -/
inductive Jsonish where
  | obj (d : Dict)
  | other

/-- The Python standard-library services used by `job_extractor.py`,
supplied as oracles: `jsonLoads s` is `json.loads(s)` (`none` models a
raised `JSONDecodeError`), and `reSearch pattern text` is
`re.search(pattern, text)` reduced to `group(1)` (`none` models no
match). -/
structure PyLibs where
  jsonLoads : String → Option Jsonish
  reSearch : String → String → Option String

/-- The regex `r'\{.*\}'` with `re.DOTALL` applied by
`_process_listings` to a response that is not valid JSON: the match,
when it exists, spans from the first `\x7b` through the last `\x7d`
after it. -/
def extractBraceSpan (s : List Char) : Option (List Char) :=
  let fromBrace := s.dropWhile (fun c => c ≠ '\x7b')
  match fromBrace with
  | [] => none
  | _ :: _ =>
    let upto := (fromBrace.reverse.dropWhile (fun c => c ≠ '\x7d')).reverse
    if upto.isEmpty then none else some upto

/-- The `Location:` regex pattern of `_extract_basic_info`. -/
def locationPattern : String :=
  "Location:?\\s*([^,\\n]+(?:,\\s*[^,\\n]+)?)"

/-- The three experience-level regex patterns of
`_extract_basic_info`, tried in order. -/
def experiencePatterns : List String :=
  ["(\\d+-\\d+)\\s+years",
   "(Senior|Junior|Mid|Entry[- ]Level|Principal|Lead)",
   "Experience:?\\s*(\\w+)"]

/-- The experience-pattern loop of `_extract_basic_info` (initialise
to `'Not specified'`, take the first pattern that matches, `break`). -/
def expPatternLoop (libs : PyLibs) (content : String) : List String → String
  | [] => "Not specified"
  | pat :: rest =>
    match libs.reSearch pat content with
    | some m => m
    | none => expPatternLoop libs content rest

/-- `job_extractor._extract_basic_info`. -/
def extract_basic_info (libs : PyLibs) (raw : RawListing) : Dict :=
  let content := raw.content
  let location := (libs.reSearch locationPattern content).getD "Not specified"
  let experience_level := expPatternLoop libs content experiencePatterns
  [("title", .str raw.title),
   ("location", .str location),
   ("description", .str (if 300 < content.length then pyTake content 300 ++ "..." else content)),
   ("requirements", .str "Not specified"),
   ("experience_level", .str experience_level)]

/-- The fixed text of the extraction prompt of `_process_listings`
before the listing content. -/
def structPromptPrefix : String :=
  "\n        Extract the following information from this job listing:\n        1. Job Title\n        2. Location\n        3. Job Description (brief)\n        4. Requirements\n        5. Experience Level\n\n        Job Listing:\n        "

/-- The fixed text of the extraction prompt after the listing content
(the doubled braces of the f-string render as literal braces). -/
def structPromptSuffix : String :=
  "  # Limit content length to avoid token limits\n\n        Format your response as a JSON object with these fields: \n        \x7b\n            \"title\": \"extracted title\", \n            \"location\": \"extracted location\", \n            \"description\": \"brief description\", \n            \"requirements\": \"key requirements\", \n            \"experience_level\": \"senior/mid/junior/etc\"\n        \x7d\n        Only return the JSON object, nothing else.\n        "

/-- The extraction prompt of `_process_listings`
(`raw_listing['content'][:2000]` interpolated between the fixed
parts). -/
def structPrompt (raw : RawListing) : String :=
  structPromptPrefix ++ pyTake raw.content 2000 ++ structPromptSuffix

/-- `raw_listing['url']` as a dictionary value. -/
def optStrVal : Option String → PyVal
  | some s => .str s
  | none => .nil

/-- The structured listing built by `_process_listings` on the success
path: `extracted_data.get(...)` with the source's defaults, and
`extracted_data.get('title') or raw_listing['title']`. -/
def structuredListing (raw : RawListing) (extracted_data : Dict) : Dict :=
  [("title", pyOr (extracted_data.getD "title" .nil) (.str raw.title)),
   ("url", optStrVal raw.url),
   ("company", extracted_data.getD "company" (.str "")),
   ("location", extracted_data.getD "location" (.str "Not specified")),
   ("description", extracted_data.getD "description" (.str "No description available")),
   ("requirements", extracted_data.getD "requirements" (.str "Not specified")),
   ("experience_level", extracted_data.getD "experience_level" (.str "Not specified"))]

/-- The fallback listing appended by the `except` handler of
`_process_listings`: only `title`, `url` and a truncated
`description`. -/
def degradedListing (raw : RawListing) : Dict :=
  [("title", .str raw.title),
   ("url", optStrVal raw.url),
   ("description", .str (if 500 < raw.content.length then pyTake raw.content 500 ++ "..."
                         else raw.content))]

/-- The body of the `for` loop of `_process_listings` for one raw
listing: `none` when the listing is skipped for having fewer than 20
characters of content, otherwise the structured listing (with the
`try`/`except` of the source: any exception from `query_model` or from
calling `.get` on a non-object degrades to `degradedListing`). -/
def processOne (libs : PyLibs) (model_name : String) (api_key : Option String)
    (raw : RawListing) : Option Dict :=
  if raw.content.length < 20 then none
  else
    let attempt : Except PyErr Dict :=
      match query_model model_name (structPrompt raw) api_key with
      | .error e => .error e
      | .ok response =>
        let parsed : Except PyErr Jsonish :=
          match libs.jsonLoads response with
          | some v => .ok v
          | none =>
            match extractBraceSpan response.data with
            | some span =>
              match libs.jsonLoads ⟨span⟩ with
              | some v => .ok v
              | none => .ok (.obj (extract_basic_info libs raw))
            | none => .ok (.obj (extract_basic_info libs raw))
        match parsed with
        | .ok (.obj extracted_data) => .ok (structuredListing raw extracted_data)
        | .ok .other => .error (.attributeError "'list' object has no attribute 'get'")
        | .error e => .error e
    match attempt with
    | .ok structured => some structured
    | .error _ => some (degradedListing raw)

/-- `job_extractor._process_listings`. -/
def process_listings (libs : PyLibs) (model_name : String) (api_key : Option String)
    (raw_listings : List RawListing) : List Dict :=
  raw_listings.filterMap (processOne libs model_name api_key)

/-- The `listing_text`/`prompt` pair of the second-chance model pass
of `_filter_by_keywords`, built from the three field values already
read from the listing. -/
def filterPrompt (keywords : String) (t d r : PyVal) : String :=
  let listing_text :=
    "\n        Title: " ++ pyValStr t ++ "\n        Description: " ++ pyValStr d ++
    "\n        Requirements: " ++ pyValStr r ++ "\n        "
  "\n        Determine if this job posting matches the following keywords: " ++ keywords ++
  "\n        \n        Job Posting:\n        " ++ listing_text ++
  "\n        \n        Respond with either \"yes\" or \"no\".\n        "

/-- The listing loop of `_filter_by_keywords`, instrumented with the
list of prompts sent to the model.  Indexing `listing['title']`,
`listing['description']`, `listing['requirements']` raises `KeyError`
on a listing missing one of them (the f-string of the source performs
exactly these three accesses, in this order, outside any `try`). -/
def filterLoop (model_name : String) (api_key : Option String)
    (keywords_list : List String) (keywords : String) :
    List Dict → Except PyErr (List Dict × List String)
  | [] => .ok ([], [])
  | listing :: rest =>
    match listing.item "title" with
    | .error e => .error e
    | .ok t =>
      match listing.item "description" with
      | .error e => .error e
      | .ok d =>
        match listing.item "requirements" with
        | .error e => .error e
        | .ok r =>
          let listing_text := pyLower (pyValStr t ++ " " ++ pyValStr d ++ " " ++ pyValStr r)
          if keywords_list.any (fun keyword => pyInStr keyword listing_text) then
            match filterLoop model_name api_key keywords_list keywords rest with
            | .error e => .error e
            | .ok (ls, calls) => .ok (listing :: ls, calls)
          else
            let prompt := filterPrompt keywords t d r
            match query_model model_name prompt api_key with
            | .ok response =>
              if pyLower (pyStrip response) = "yes" then
                match filterLoop model_name api_key keywords_list keywords rest with
                | .error e => .error e
                | .ok (ls, calls) => .ok (listing :: ls, prompt :: calls)
              else
                match filterLoop model_name api_key keywords_list keywords rest with
                | .error e => .error e
                | .ok (ls, calls) => .ok (ls, prompt :: calls)
            | .error _ =>
              match filterLoop model_name api_key keywords_list keywords rest with
              | .error e => .error e
              | .ok (ls, calls) => .ok (ls, prompt :: calls)

/-- `job_extractor._filter_by_keywords`, instrumented with the prompts
sent to the model: the keyword list is
`[k.strip().lower() for k in keywords.split(',')]`. -/
def filter_by_keywordsT (listings : List Dict) (keywords model_name : String)
    (api_key : Option String) : Except PyErr (List Dict × List String) :=
  filterLoop model_name api_key
    ((pySplitStr "," keywords).map (fun k => pyLower (pyStrip k))) keywords listings

/-- `job_extractor._filter_by_keywords`: the returned (or raising)
filtered list. -/
def filter_by_keywords (listings : List Dict) (keywords model_name : String)
    (api_key : Option String) : Except PyErr (List Dict) :=
  (filter_by_keywordsT listings keywords model_name api_key).map (fun p => p.1)

/-! ## General helper lemmas -/

/-- A `filterMap` is unchanged by pre-filtering away elements that the
function maps to `none`. -/
theorem filterMap_filter_eq {α β : Type} (f : α → Option β) (p : α → Bool)
    (h : ∀ a, p a = false → f a = none) :
    ∀ l : List α, l.filterMap f = (l.filter p).filterMap f := by
  intro l
  induction l with
  | nil => rfl
  | cons a t ih =>
    by_cases hp : p a = true
    · simp only [List.filterMap_cons, List.filter_cons, hp, if_true]
      cases hfa : f a <;> simp [hfa, ih]
    · have hf := h a (by simpa using hp)
      simp only [List.filterMap_cons, List.filter_cons, hp, hf]
      simpa using ih

/-! ## Claim C8 -/

/-- C8: for every model name and prompt, `query_model` raises a
configuration error (`ValueError`) before attempting any backend call
whenever the selected model requires an API key and none is provided,
or the model identifier belongs to no supported backend family; in
neither case does it issue or simulate a backend request (the
instrumented call list is empty). -/
theorem claim_C8_query_model_fails_fast (model_name prompt : String)
    (api_key : Option String) (max_tokens : Nat)
    (h : (is_api_key_required model_name = true ∧ pyFalsyOptStr api_key = true) ∨
         (pyStartsWithStr model_name "huggingface/" = false ∧
          pyStartsWithStr model_name "openai/" = false)) :
    (∃ msg, (query_modelT model_name prompt api_key max_tokens).1 =
      .error (.valueError msg)) ∧
    (query_modelT model_name prompt api_key max_tokens).2 = [] := by
  unfold query_modelT
  rcases h with ⟨h1, h2⟩ | ⟨h1, h2⟩
  · rw [if_pos ⟨h1, h2⟩]
    exact ⟨⟨_, rfl⟩, rfl⟩
  · by_cases hk : is_api_key_required model_name = true ∧ pyFalsyOptStr api_key = true
    · rw [if_pos hk]
      exact ⟨⟨_, rfl⟩, rfl⟩
    · rw [if_neg hk]
      simp only [h1, h2, Bool.false_eq_true, if_false]
      exact ⟨⟨_, rfl⟩, by simp⟩

/-- Witness for C8: a credential-requiring model without a key, and a
model of no supported family, both fail fast with no backend call. -/
theorem claim_C8_witness :
    ((∃ msg, (query_modelT "openai/gpt-3.5-turbo" "hello" none 100).1 =
        .error (.valueError msg)) ∧
      (query_modelT "openai/gpt-3.5-turbo" "hello" none 100).2 = []) ∧
    ((∃ msg, (query_modelT "mistral" "hello" (some "key") 100).1 =
        .error (.valueError msg)) ∧
      (query_modelT "mistral" "hello" (some "key") 100).2 = []) :=
  ⟨claim_C8_query_model_fails_fast _ _ _ _ (.inl ⟨by decide, by decide⟩),
   claim_C8_query_model_fails_fast _ _ _ _ (.inr ⟨by decide, by decide⟩)⟩

/-! ## Claim C4 -/

/-- The seven source-key/export-key pairs written by
`format_job_listing_for_export`. -/
def exportKeyPairs : List (String × String) :=
  [("title", "Title"), ("company", "Company"), ("location", "Location"),
   ("description", "Description"), ("requirements", "Requirements"),
   ("experience_level", "Experience Level"), ("url", "URL")]

/-- C4, counterexample: a listing with a populated `relevance_score`
field loses it on export — the exported record has no such key, so the
round trip does not preserve every populated field. -/
theorem claim_C4_counterexample :
    Dict.getval [("title", PyVal.str "Engineer"), ("relevance_score", PyVal.int 7)]
      "relevance_score" = some (PyVal.int 7) ∧
    ((format_job_listing_for_export
        [[("title", PyVal.str "Engineer"), ("relevance_score", PyVal.int 7)]]).headD
      []).getval "relevance_score" = none := by
  decide

/-- C4, amended: formatting for export preserves the seven exported
fields (`title`, `company`, `location`, `description`, `requirements`,
`experience_level`, `url`); each of the seven keys is always present in
the exported record, a populated source field keeps its value, and an
absent one maps to the empty-string placeholder — but fields outside
the seven (notably `relevance_score`) are dropped. -/
theorem claim_C4_amended (listings : List Dict) (i : Nat) (hi : i < listings.length) :
    (format_job_listing_for_export listings).length = listings.length ∧
    ∃ out, (format_job_listing_for_export listings)[i]? = some out ∧
      out.map Prod.fst =
        ["Title", "Company", "Location", "Description", "Requirements",
         "Experience Level", "URL"] ∧
      ∀ p ∈ exportKeyPairs,
        out.getval p.2 = some (Dict.getD (listings.get ⟨i, hi⟩) p.1 (.str "")) := by
  refine ⟨by simp [format_job_listing_for_export], ?_⟩
  refine ⟨formatOneListing (listings.get ⟨i, hi⟩), ?_, rfl, ?_⟩
  · simp [format_job_listing_for_export, List.getElem?_eq_getElem, hi]
  · intro p hp
    fin_cases hp <;> rfl

/-- Witness for C4's amended theorem at a one-listing input. -/
theorem claim_C4_witness :
    (format_job_listing_for_export [[("title", PyVal.str "Dev")]]).length = 1 :=
  (claim_C4_amended [[("title", PyVal.str "Dev")]] 0 (by decide)).1

/-! ## Claim C6 -/

/-- C6: a raw listing with fewer than 20 characters of content is never
forwarded to model-based structuring and is excluded from the output of
`_process_listings` — processing a batch equals processing only its
listings with at least 20 characters of content; concretely, of a
19-character and a 21-character listing only the latter is included
(and is structured through the fallback chain). -/
theorem claim_C6_min_content_threshold :
    (∀ (libs : PyLibs) (model_name : String) (api_key : Option String)
        (raws : List RawListing),
      process_listings libs model_name api_key raws =
        process_listings libs model_name api_key
          (raws.filter (fun r => 20 ≤ r.content.length))) ∧
    process_listings ⟨fun _ => none, fun _ _ => none⟩ "huggingface/gpt2" none
        [⟨"A", none, "0123456789012345678", ""⟩,
         ⟨"B", none, "012345678901234567890", ""⟩] =
      [[("title", PyVal.str "B"), ("url", PyVal.nil), ("company", PyVal.str ""),
        ("location", PyVal.str "Not specified"),
        ("description", PyVal.str "012345678901234567890"),
        ("requirements", PyVal.str "Not specified"),
        ("experience_level", PyVal.str "Not specified")]] := by
  constructor
  · intro libs model_name api_key raws
    unfold process_listings
    apply filterMap_filter_eq
    intro r hr
    unfold processOne
    rw [if_pos]
    simp only [decide_eq_false_iff_not, not_le] at hr
    omega
  · rfl

/-! ## Claim C7 -/

/-- The URL loop of `test_career_urls` returns the first URL of the
list whose fetch status is exactly 200. -/
theorem testUrlsLoop_first (net : Net) (l : List String) :
    ∀ (i : Nat) (hi : i < l.length),
      (fetch_page net (l.get ⟨i, hi⟩)).1 = some 200 →
      (∀ k (hk : k < l.length), k < i →
        (fetch_page net (l.get ⟨k, hk⟩)).1 ≠ some 200) →
      testUrlsLoop net l = some (l.get ⟨i, hi⟩) := by
  induction l with
  | nil =>
    intro i hi
    simp at hi
  | cons u t ih =>
    intro i hi h200 hbefore
    cases i with
    | zero =>
      have h200' : (fetch_page net u).1 = some 200 := h200
      unfold testUrlsLoop
      rw [if_pos h200']
      rfl
    | succ n =>
      have h0 : (fetch_page net u).1 ≠ some 200 :=
        hbefore 0 (by simp) (by omega)
      unfold testUrlsLoop
      rw [if_neg h0]
      exact ih n (by simpa using hi) h200
        (fun k hk hki => hbefore (k + 1) (by simpa using hk) (by omega))

/-- The pattern loop of `_direct_url_construction` returns the first
URL of the list whose `requests.head` status is below 400. -/
theorem directUrlLoop_first (net : Net) (l : List String) :
    ∀ (j : Nat) (hj : j < l.length),
      (∃ s, net.headStatus (l.get ⟨j, hj⟩) = some s ∧ s < 400) →
      (∀ k (hk : k < l.length), k < j →
        (net.headStatus (l.get ⟨k, hk⟩)).all (fun s => decide (400 ≤ s)) = true) →
      directUrlLoop net l = some (l.get ⟨j, hj⟩) := by
  induction l with
  | nil =>
    intro j hj
    simp at hj
  | cons u t ih =>
    intro j hj hok hbefore
    cases j with
    | zero =>
      obtain ⟨s, hs, hlt⟩ := hok
      have hs' : net.headStatus u = some s := hs
      unfold directUrlLoop
      rw [hs']
      show (if s < 400 then some u else directUrlLoop net t) = _
      rw [if_pos hlt]
      rfl
    | succ n =>
      have h0 : (net.headStatus u).all (fun s => decide (400 ≤ s)) = true :=
        hbefore 0 (by simp) (by omega)
      unfold directUrlLoop
      cases hu : net.headStatus u with
      | none =>
        show directUrlLoop net t = _
        exact ih n (by simpa using hj) hok
          (fun k hk hki => hbefore (k + 1) (by simpa using hk) (by omega))
      | some s =>
        rw [hu] at h0
        simp only [Option.all_some, decide_eq_true_eq] at h0
        show (if s < 400 then some u else directUrlLoop net t) = _
        rw [if_neg (by omega)]
        exact ih n (by simpa using hj) hok
          (fun k hk hki => hbefore (k + 1) (by simpa using hk) (by omega))

/-- The oracle refuting C7 on `_direct_url_construction`: the first
pattern answers 301 (not 200), the second answers 200, all others
fail. -/
def netC7 : Net where
  headStatus := fun u =>
    if u = "https://acme.com/careers" then some 301
    else if u = "https://acme.com/jobs" then some 200
    else none
  getRaw := fun _ => none
  googleResults := fun _ => []
  soup := fun _ => ⟨none, "", false, false⟩

/-- C7, counterexample: with a fetcher answering 200 for the second
pattern-generated URL and non-200 for all others (301 for the first,
transport failure for the rest), `_direct_url_construction` — one of
the two pattern-testing steps the claim describes — returns the
*first* pattern's URL, not the 200 one: its success threshold is any
status below 400, not exactly 200. -/
theorem claim_C7_counterexample :
    (directPatterns "acme")[1]? = some "https://acme.com/jobs" ∧
    netC7.headStatus "https://acme.com/jobs" = some 200 ∧
    (∀ u ∈ directPatterns "acme", u ≠ "https://acme.com/jobs" →
      netC7.headStatus u ≠ some 200) ∧
    direct_url_construction netC7 "acme" = some "https://acme.com/careers" := by
  decide

/-- C7, amended: for `WebScraper.test_career_urls` (success means
status exactly 200) the claim holds as stated: if the fetcher returns
200 for the Nth pattern URL and non-200 for every other, exactly the
Nth URL is returned.  For `_direct_url_construction`, success is any
head status below 400, so the Nth pattern's URL is returned only when
every earlier pattern's probe fails or answers with a status of 400 or
more. -/
theorem claim_C7_amended (net net' : Net) (company company' : String)
    (i j : Nat)
    (hi : i < (construct_career_urls company).length)
    (h200 : (fetch_page net ((construct_career_urls company).get ⟨i, hi⟩)).1 = some 200)
    (hothers : ∀ k (hk : k < (construct_career_urls company).length), k ≠ i →
      (fetch_page net ((construct_career_urls company).get ⟨k, hk⟩)).1 ≠ some 200)
    (hj : j < (directPatterns company').length)
    (hok : ∃ s, net'.headStatus ((directPatterns company').get ⟨j, hj⟩) = some s ∧ s < 400)
    (hearlier : ∀ k (hk : k < (directPatterns company').length), k < j →
      (net'.headStatus ((directPatterns company').get ⟨k, hk⟩)).all
        (fun s => decide (400 ≤ s)) = true) :
    test_career_urls net company = some ((construct_career_urls company).get ⟨i, hi⟩) ∧
    direct_url_construction net' company' = some ((directPatterns company').get ⟨j, hj⟩) := by
  constructor
  · exact testUrlsLoop_first net _ i hi h200
      (fun k hk hki => hothers k hk (by omega))
  · exact directUrlLoop_first net' _ j hj hok hearlier

/-- The fetcher oracle for the C7 witness: 200 exactly on the second
constructed URL, 404 on the first, failure elsewhere. -/
def netC7w : Net where
  headStatus := fun u =>
    if u = "https://acme.com/careers" then some 500
    else if u = "https://acme.com/jobs" then some 200
    else none
  getRaw := fun u =>
    if u = "https://acme.com/jobs" then some (200, "")
    else if u = "https://acme.com/careers" then some (404, "")
    else none
  googleResults := fun _ => []
  soup := fun _ => ⟨none, "", false, false⟩

/-- Witness for C7's amended theorem: both pattern-testing loops return
the second pattern's URL under `netC7w`. -/
theorem claim_C7_witness :
    test_career_urls netC7w "acme" = some "https://acme.com/jobs" ∧
    direct_url_construction netC7w "acme" = some "https://acme.com/jobs" := by
  have h := claim_C7_amended netC7w netC7w "acme" "acme" 1 1
    (by decide) (by decide)
    (by decide)
    (by decide) ⟨200, rfl, by omega⟩
    (by
      intro k hk hki
      have hk0 : k = 0 := by omega
      subst hk0
      show (netC7w.headStatus "https://acme.com/careers").all
        (fun s => decide (400 ≤ s)) = true
      decide)
  exact ⟨h.1, h.2⟩

/-- `List.isPrefixOf` on decidable-equality elements, unfolded to its
existential meaning. -/
theorem isPrefixOf_eq_true_iff (l1 l2 : List Char) :
    l1.isPrefixOf l2 = true ↔ ∃ t, l1 ++ t = l2 := by
  rw [ List.isPrefixOf_iff_prefix]
  exact Iff.rfl

/-! ## Claim C10 -/

/-- C10, counterexample: `extract_domain` strips only one `www.`
prefix, so for the non-empty URL `"www.www.x"` the result
`"www.x"` still starts with `"www."`, contradicting the claim. -/
theorem claim_C10_counterexample :
    extract_domain "www.www.x" = some "www.x" ∧
    pyStartsWithStr "www.x" "www." = true := by
  decide

/-- C10, amended: `extract_domain` is total and returns `None` exactly
on the empty input; for every non-empty URL the result contains no
`'/'` and no `':'`, and exactly one leading `www.` is stripped — so
the result starts with `"www."` only when the domain portion of the
input began with `"www.www."`. -/
theorem claim_C10_amended (url : String) :
    (extract_domain url = none ↔ url = "") ∧
    (∀ d, extract_domain url = some d →
      (∀ c ∈ d.data, c ≠ '/' ∧ c ≠ ':') ∧
      (pyStartsWithStr d "www." = true →
        "www.www.".data.isPrefixOf (rawDomainChars url) = true)) := by
  have hmem : ∀ c ∈ rawDomainChars url, c ≠ '/' ∧ c ≠ ':' := by
    intro c hc
    have h2 : c ≠ ':' := by simpa using List.mem_takeWhile_imp hc
    have hc' : c ∈ ((pySplitOn "://".data url.data).getLastD []).takeWhile
        (fun c => c ≠ '/') := (List.takeWhile_sublist _).subset hc
    have h1 : c ≠ '/' := by simpa using List.mem_takeWhile_imp hc'
    exact ⟨h1, h2⟩
  constructor
  · unfold extract_domain
    by_cases h : pyTruthyStr url = true
    · rw [if_neg (by simpa using h)]
      constructor
      · intro hsome
        by_cases hp : "www.".data.isPrefixOf (rawDomainChars url) = true
        · rw [if_pos hp] at hsome
          cases hsome
        · rw [if_neg hp] at hsome
          cases hsome
      · intro hurl
        subst hurl
        simp [pyTruthyStr] at h
    · rw [if_pos (by simpa using h)]
      simp only [true_iff]
      have hfalse : pyTruthyStr url = false := by
        cases hcase : pyTruthyStr url
        · rfl
        · exact absurd hcase h
      have hdata : url.data = [] := by
        simpa [pyTruthyStr, List.isEmpty_iff] using hfalse
      exact String.ext hdata
  · intro d hd
    unfold extract_domain at hd
    by_cases h : pyTruthyStr url = true
    · rw [if_neg (by simpa using h)] at hd
      by_cases hp : "www.".data.isPrefixOf (rawDomainChars url) = true
      · rw [if_pos hp] at hd
        obtain rfl : (⟨(rawDomainChars url).drop 4⟩ : String) = d := by
          injection hd
        constructor
        · intro c hc
          exact hmem c ((List.drop_sublist _ _).subset hc)
        · intro hsw
          unfold pyStartsWithStr at hsw
          rw [isPrefixOf_eq_true_iff] at hp hsw ⊢
          obtain ⟨t, ht⟩ := hp
          obtain ⟨t', ht'⟩ := hsw
          have hdrop : (rawDomainChars url).drop 4 = t := by
            rw [← ht]
            exact List.drop_left "www.".data t
          rw [hdrop] at ht'
          have ht2 : "www.".data ++ t' = t := ht'
          refine ⟨t', ?_⟩
          rw [← ht, ← ht2]
          rfl
      · rw [if_neg hp] at hd
        obtain rfl : (⟨rawDomainChars url⟩ : String) = d := by
          injection hd
        constructor
        · intro c hc
          exact hmem c hc
        · intro hsw
          exact absurd hsw hp
    · rw [if_pos (by simpa using h)] at hd
      cases hd

/-- Witness for C10's amended theorem: a concrete URL whose domain is
extracted, with the character guarantees instantiated, and the empty
input mapping to `None`. -/
theorem claim_C10_witness :
    ('e' ≠ '/' ∧ 'e' ≠ ':') ∧ extract_domain "" = none :=
  ⟨((claim_C10_amended "http://www.example.com:80/jobs").2 "example.com"
      (by decide)).1 'e' (by decide),
   (claim_C10_amended "").1.mpr rfl⟩

/-! ## Claim C3 -/

/-- `String.mk` projection, for rewriting. -/
theorem data_mk (l : List Char) : (⟨l⟩ : String).data = l := rfl

/-- ASCII lowercasing never yields an uppercase letter. -/
theorem pyCharLower_not_upper (c : Char) : ¬ isUpperAscii (pyCharLower c) := by
  unfold pyCharLower isUpperAscii
  split
  · next h =>
    have hv : Nat.isValidChar (c.toNat + 32) := by
      left
      omega
    rw [Char.ofNat, dif_pos hv]
    have he : (Char.ofNatAux (c.toNat + 32) hv).toNat = c.toNat + 32 := rfl
    rw [he]
    omega
  · next h => exact h

/-- A list is a prefix of itself followed by anything. -/
theorem isPrefixOf_append (n b : List Char) : n.isPrefixOf (n ++ b) = true := by
  rw [isPrefixOf_eq_true_iff]
  exact ⟨b, rfl⟩

/-- A list is a prefix of any extension of one of its extensions. -/
theorem isPrefixOf_trans_append (n m b : List Char) :
    n.isPrefixOf ((n ++ m) ++ b) = true := by
  rw [isPrefixOf_eq_true_iff]
  exact ⟨m ++ b, by simp⟩

/-- `containsSub` holds when the needle sits at the front. -/
theorem containsSub_here (n b : List Char) : containsSub n (n ++ b) = true := by
  cases hnb : n ++ b with
  | nil =>
    have hn : n = [] := by
      cases n
      · rfl
      · simp at hnb
    subst hn
    rfl
  | cons c rest =>
    unfold containsSub
    rw [← hnb, isPrefixOf_append]
    simp

/-- `containsSub` is preserved by consing to the haystack. -/
theorem containsSub_cons (n : List Char) (c : Char) (h : List Char)
    (hc : containsSub n h = true) : containsSub n (c :: h) = true := by
  unfold containsSub
  rw [hc]
  simp

/-- `containsSub` is preserved by prepending to the haystack. -/
theorem containsSub_append_left (n : List Char) :
    ∀ (a h : List Char), containsSub n h = true → containsSub n (a ++ h) = true
  | [], _, hh => hh
  | c :: a', h, hh => containsSub_cons _ c _ (containsSub_append_left n a' h hh)

/-- The needle occurs in `a ++ (n ++ b)`. -/
theorem containsSub_parts (n a b : List Char) : containsSub n (a ++ (n ++ b)) = true :=
  containsSub_append_left n a _ (containsSub_here n b)

/-- If `"http"` is a prefix of `l ++ '.' :: s` then it is already a
prefix of `l`: the characters of `"http"` do not include `'.'`. -/
theorem http_isPrefixOf_append_dot (l s : List Char)
    (h : "http".data.isPrefixOf (l ++ '.' :: s) = true) :
    "http".data.isPrefixOf l = true := by
  rcases l with _ | ⟨a, _ | ⟨b, _ | ⟨c, _ | ⟨d, t⟩⟩⟩⟩
  · simp [List.isPrefixOf] at h
  · simp [List.isPrefixOf] at h
  · simp [List.isPrefixOf] at h
  · simp [List.isPrefixOf] at h
  · simp only [List.cons_append, List.isPrefixOf] at h ⊢
    simpa using h

/-- `containsSub` is stable under the scheme-prepending conditional of
`construct_career_urls`. -/
theorem containsSub_schemeIf (n : List Char) (url : String) (cond : Bool)
    (h : containsSub n url.data = true) :
    containsSub n (if cond = true then url else "https://" ++ url).data = true := by
  cases cond
  · simp only [Bool.false_eq_true, if_false, String.data_append]
    exact containsSub_append_left n _ _ h
  · simpa

/-- C3, counterexample: `config.construct_career_urls` removes only
spaces (commas and periods survive into the URLs), and it skips the
scheme prefix entirely when the slug itself begins with `"http"` — so
neither "slugified by removing spaces, commas, and periods" nor "each
prefixed with a scheme" holds of it. -/
theorem claim_C3_counterexample :
    (construct_career_urls "Acme, Inc.").headD "" = "https://acme,inc..com/careers" ∧
    pyInStr "," ((construct_career_urls "Acme, Inc.").headD "") = true ∧
    (construct_career_urls "httpco").headD "" = "httpco.com/careers" ∧
    pyStartsWithStr "httpco.com/careers" "https://" = false ∧
    pyStartsWithStr "httpco.com/careers" "http://" = false := by
  decide

/-- C3, amended: both URL-pattern generators return fixed-count,
deterministically ordered lists (9 URLs from
`config.construct_career_urls`, 6 from
`search_engine._direct_url_construction`).  The search-engine slug is
lowercased with spaces, commas and periods removed and occurs in each
of its URLs, all of which carry the `https://` scheme.  The config
slug is lowercased with only spaces removed; it occurs in each of its
URLs, and those URLs carry the `https://` scheme provided the slug
itself does not begin with `"http"`. -/
theorem claim_C3_amended (name : String) :
    (construct_career_urls name).length = 9 ∧
    (directPatterns name).length = 6 ∧
    (∀ c ∈ (searchSlug name).data, ¬ isUpperAscii c ∧ c ≠ ' ' ∧ c ≠ ',' ∧ c ≠ '.') ∧
    (∀ c ∈ (configSlug name).data, ¬ isUpperAscii c ∧ c ≠ ' ') ∧
    (∀ u ∈ directPatterns name,
      pyStartsWithStr u "https://" = true ∧
      containsSub (searchSlug name).data u.data = true) ∧
    (∀ u ∈ construct_career_urls name,
      containsSub (configSlug name).data u.data = true ∧
      (pyStartsWithStr (configSlug name) "http" = false →
        pyStartsWithStr u "https://" = true)) := by
  refine ⟨rfl, rfl, ?_, ?_, ?_, ?_⟩
  · intro c hc
    simp only [searchSlug, removeChar, pyLower, data_mk, List.mem_filter,
      List.mem_map] at hc
    obtain ⟨⟨⟨⟨a, _, rfl⟩, h1⟩, h2⟩, h3⟩ := hc
    exact ⟨pyCharLower_not_upper a, by simpa using h1, by simpa using h2,
      by simpa using h3⟩
  · intro c hc
    simp only [configSlug, removeChar, pyLower, data_mk, List.mem_filter,
      List.mem_map] at hc
    obtain ⟨⟨a, _, rfl⟩, h1⟩ := hc
    exact ⟨pyCharLower_not_upper a, by simpa using h1⟩
  · intro u hu
    simp only [directPatterns, List.mem_cons, List.not_mem_nil, or_false] at hu
    rcases hu with rfl | rfl | rfl | rfl | rfl | rfl <;>
      refine ⟨?_, ?_⟩ <;>
      simp only [pyStartsWithStr, String.data_append, List.append_assoc] <;>
      first
        | exact isPrefixOf_append _ _
        | exact isPrefixOf_trans_append "https://".data "www.".data _
        | exact isPrefixOf_trans_append "https://".data "careers.".data _
        | exact containsSub_parts _ _ _
  · intro u hu
    simp only [construct_career_urls, CAREER_PAGE_PATTERNS, List.map_cons,
      List.map_nil, List.mem_cons, List.not_mem_nil, or_false] at hu
    rcases hu with rfl | rfl | rfl | rfl | rfl | rfl | rfl | rfl | rfl <;>
      constructor <;>
      try
        (apply containsSub_schemeIf
         simp only [String.data_append, List.append_assoc]
         first
           | exact containsSub_parts _ [] _
           | exact containsSub_parts _ "careers.".data _
           | exact containsSub_parts _ "jobs.".data _)
    all_goals
      intro hhttp
      rw [if_neg]
      · simp only [pyStartsWithStr, String.data_append]
        exact isPrefixOf_append _ _
      · intro hcond
        apply absurd hhttp
        simp only [pyStartsWithStr, String.data_append] at hcond ⊢
        simp only [Bool.not_eq_false]
        first
          | exact http_isPrefixOf_append_dot _ _
              (by simpa using hcond)
          | (exfalso
             revert hcond
             simp [List.isPrefixOf])

/-- Witness for C3's amended theorem at company name `"Acme Inc"`. -/
theorem claim_C3_witness :
    (construct_career_urls "Acme Inc").length = 9 ∧
    (directPatterns "Acme Inc").length = 6 ∧
    pyStartsWithStr "https://acmeinc.com/careers" "https://" = true :=
  ⟨(claim_C3_amended "Acme Inc").1, (claim_C3_amended "Acme Inc").2.1,
   ((claim_C3_amended "Acme Inc").2.2.2.2.2 "https://acmeinc.com/careers"
      (by decide)).2 (by decide)⟩

/-! ## Claim C9 -/

/-- No two consecutive whitespace characters. -/
def noDoubleSpace : List Char → Bool
  | [] => true
  | [_] => true
  | a :: b :: t => (!(pyIsSpace a && pyIsSpace b)) && noDoubleSpace (b :: t)

/-- Every word produced by `wordsAux` is non-empty and free of
whitespace characters, provided the accumulator is. -/
theorem wordsAux_props : ∀ (l acc : List Char), (∀ c ∈ acc, pyIsSpace c = false) →
    ∀ w ∈ wordsAux l acc, w ≠ [] ∧ ∀ c ∈ w, pyIsSpace c = false := by
  intro l
  induction l with
  | nil =>
    intro acc hacc w hw
    unfold wordsAux at hw
    by_cases hae : acc.isEmpty = true
    · rw [if_pos hae] at hw
      simp at hw
    · rw [if_neg hae] at hw
      rcases List.mem_singleton.mp hw with rfl
      refine ⟨by simpa [List.isEmpty_iff] using hae, ?_⟩
      intro c hc
      exact hacc c (List.mem_reverse.mp hc)
  | cons c rest ih =>
    intro acc hacc w hw
    unfold wordsAux at hw
    by_cases hsp : pyIsSpace c = true
    · rw [if_pos hsp] at hw
      by_cases hae : acc.isEmpty = true
      · rw [if_pos hae] at hw
        exact ih [] (by simp) w hw
      · rw [if_neg hae] at hw
        rcases List.mem_cons.mp hw with rfl | hw'
        · refine ⟨by simpa [List.isEmpty_iff] using hae, ?_⟩
          intro x hx
          exact hacc x (List.mem_reverse.mp hx)
        · exact ih [] (by simp) w hw'
    · rw [if_neg hsp] at hw
      refine ih (c :: acc) ?_ w hw
      intro x hx
      rcases List.mem_cons.mp hx with rfl | hx'
      · simpa using hsp
      · exact hacc x hx'

/-- A list of non-whitespace characters has no double space. -/
theorem noDoubleSpace_of_all : ∀ (l : List Char),
    (∀ c ∈ l, pyIsSpace c = false) → noDoubleSpace l = true
  | [], _ => rfl
  | [_], _ => rfl
  | a :: b :: t, h => by
    unfold noDoubleSpace
    have ha := h a (by simp)
    rw [ha]
    simpa using noDoubleSpace_of_all (b :: t) (fun c hc => h c (by simp [List.mem_cons.mp hc]))

/-- Extending a no-double-space list with a compatible head. -/
theorem noDoubleSpace_cons (a : Char) (rest : List Char)
    (hrest : noDoubleSpace rest = true)
    (hhead : ∀ b, rest.head? = some b → pyIsSpace a = false ∨ pyIsSpace b = false) :
    noDoubleSpace (a :: rest) = true := by
  cases rest with
  | nil => rfl
  | cons b t =>
    unfold noDoubleSpace
    rcases hhead b rfl with h | h <;> simp [h, hrest]

/-- Prepending non-whitespace characters preserves `noDoubleSpace`. -/
theorem noDoubleSpace_append (xs l : List Char)
    (hx : ∀ c ∈ xs, pyIsSpace c = false) (hl : noDoubleSpace l = true) :
    noDoubleSpace (xs ++ l) = true := by
  induction xs with
  | nil => simpa
  | cons a t ih =>
    refine noDoubleSpace_cons a (t ++ l) (ih (fun c hc => hx c (by simp [hc]))) ?_
    intro b _
    exact Or.inl (hx a (by simp))

/-- A space-join of non-empty whitespace-free words starts and ends
with a non-whitespace character and has no two consecutive whitespace
characters. -/
theorem joined_props : ∀ (ws : List (List Char)),
    (∀ w ∈ ws, w ≠ [] ∧ ∀ c ∈ w, pyIsSpace c = false) →
    noDoubleSpace (pyJoinChars [' '] ws) = true ∧
    (∀ c, (pyJoinChars [' '] ws).head? = some c → pyIsSpace c = false) ∧
    (∀ c, (pyJoinChars [' '] ws).getLast? = some c → pyIsSpace c = false)
  | [], _ => by
    refine ⟨rfl, ?_, ?_⟩ <;> intro c hc <;> cases hc
  | [w], h => by
    obtain ⟨hne, hchars⟩ := h w (by simp)
    refine ⟨noDoubleSpace_of_all w hchars, ?_, ?_⟩
    · intro c hc
      exact hchars c (List.mem_of_mem_head? hc)
    · intro c hc
      exact hchars c (List.mem_of_mem_getLast? hc)
  | w :: w' :: ws, h => by
    obtain ⟨hne, hchars⟩ := h w (by simp)
    obtain ⟨ihnds, ihhead, ihlast⟩ :=
      joined_props (w' :: ws) (fun x hx => h x (by simp [List.mem_cons.mp hx]))
    have hrest_ne : pyJoinChars [' '] (w' :: ws) ≠ [] := by
      obtain ⟨hne', _⟩ := h w' (by simp)
      cases ws with
      | nil => simpa [pyJoinChars]
      | cons w'' ws' =>
        simp only [pyJoinChars]
        intro hcontra
        rcases List.append_eq_nil.mp (List.append_eq_nil.mp hcontra).1 with ⟨h1, _⟩
        exact hne' h1
    have hshape : pyJoinChars [' '] (w :: w' :: ws) =
        w ++ (' ' :: pyJoinChars [' '] (w' :: ws)) := by
      simp [pyJoinChars]
    refine ⟨?_, ?_, ?_⟩
    · rw [hshape]
      refine noDoubleSpace_append w _ hchars ?_
      refine noDoubleSpace_cons ' ' _ ihnds ?_
      intro b hb
      exact Or.inr (ihhead b hb)
    · rw [hshape]
      intro c hc
      cases w with
      | nil => exact absurd rfl hne
      | cons a t =>
        simp only [List.cons_append, List.head?_cons, Option.some.injEq] at hc
        exact hc ▸ hchars a (by simp)
    · rw [hshape]
      intro c hc
      rw [List.getLast?_append_of_ne_nil _ (by simp)] at hc
      cases hrest : (pyJoinChars [' '] (w' :: ws)).getLast? with
      | none =>
        exact absurd (List.getLast?_eq_none_iff.mp hrest) hrest_ne
      | some x =>
        rw [List.getLast?_cons, hrest] at hc
        simp only [Option.getD_some, Option.some.injEq] at hc
        subst hc
        exact ihlast x hrest

/-- C9: the two whitespace normalizers `utils.clean_text` and
`config.clean_text` are extensionally equal — both are
`"" if not text else ' '.join(text.split())` — and on every input the
result has no leading whitespace, no trailing whitespace and no two
consecutive whitespace characters. -/
theorem claim_C9_clean_text_equal (text : String) :
    utils_clean_text text = config_clean_text text ∧
    (∀ c, (utils_clean_text text).data.head? = some c → pyIsSpace c = false) ∧
    (∀ c, (utils_clean_text text).data.getLast? = some c → pyIsSpace c = false) ∧
    noDoubleSpace (utils_clean_text text).data = true := by
  refine ⟨rfl, ?_⟩
  have hprops := joined_props (pyWords text.data) (wordsAux_props text.data [] (by simp))
  unfold utils_clean_text
  by_cases h : pyTruthyStr text = true
  · rw [if_neg (by simpa using h)]
    unfold pyJoinSplit
    simp only [data_mk]
    exact ⟨hprops.2.1, hprops.2.2, hprops.1⟩
  · rw [if_pos (by simpa using h)]
    have hempty : ("" : String).data = [] := rfl
    refine ⟨?_, ?_, ?_⟩
    · intro c hc
      rw [hempty] at hc
      exact Option.noConfusion hc
    · intro c hc
      rw [hempty] at hc
      exact Option.noConfusion hc
    · rw [hempty]
      rfl

/-- Witness for C9 on a concrete messy input. -/
theorem claim_C9_witness :
    utils_clean_text "  a \t  b " = config_clean_text "  a \t  b " ∧
    pyIsSpace 'a' = false :=
  ⟨(claim_C9_clean_text_equal "  a \t  b ").1,
   (claim_C9_clean_text_equal "  a \t  b ").2.1 'a' (by decide)⟩

/-! ## Claim C5 -/

/-- Stripping preserves a non-whitespace head character. -/
theorem pyStrip_head (r : String) (c : Char) (hc : pyIsSpace c = false)
    (hd : r.data.head? = some c) : ∃ t, (pyStrip r).data = c :: t := by
  cases hdata : r.data with
  | nil =>
    rw [hdata] at hd
    exact Option.noConfusion hd
  | cons a l =>
    rw [hdata] at hd
    simp only [List.head?_cons, Option.some.injEq] at hd
    subst hd
    unfold pyStrip
    simp only [data_mk, hdata]
    rw [List.dropWhile_cons]
    rw [hc]
    simp only [Bool.false_eq_true, if_false]
    set xs := (a :: l).reverse.dropWhile pyIsSpace with hxs
    have hsuffix := List.dropWhile_suffix (l := (a :: l).reverse) pyIsSpace
    obtain ⟨pre, hpre⟩ := hsuffix
    have hne : xs ≠ [] := by
      intro hnil
      have hall := List.dropWhile_eq_nil_iff.mp hnil
      have := hall a (by simp)
      rw [hc] at this
      cases this
    have hlast : xs.getLast? = some a := by
      have h1 : (pre ++ xs).getLast? = xs.getLast? :=
        List.getLast?_append_of_ne_nil pre hne
      have h2 : (a :: l).reverse.getLast? = some a := by
        rw [List.getLast?_reverse]
        rfl
    
      rw [← hxs] at hpre
      rw [hpre] at h1
      rw [h2] at h1
      exact h1.symm
    have hhead : xs.reverse.head? = some a := by
      rw [List.head?_reverse]
      exact hlast
    cases hrev : xs.reverse with
    | nil =>
      rw [hrev] at hhead
      exact Option.noConfusion hhead
    | cons b t =>
      rw [hrev] at hhead
      simp only [List.head?_cons, Option.some.injEq] at hhead
      subst hhead
      exact ⟨t, rfl⟩

/-- If a string starts with a non-whitespace character whose lowercase
form is not `'y'`, then lowercasing its stripped form is not
`"yes"`. -/
theorem lower_strip_ne_yes (r : String) (c : Char) (hc : pyIsSpace c = false)
    (hd : r.data.head? = some c) (hcy : pyCharLower c ≠ 'y') :
    pyLower (pyStrip r) ≠ "yes" := by
  obtain ⟨t, ht⟩ := pyStrip_head r c hc hd
  intro heq
  have hdata := congrArg String.data heq
  simp only [pyLower, data_mk, ht, List.map_cons] at hdata
  have hy : pyCharLower c = 'y' :=
    ((List.cons.injEq _ _ _ _).mp hdata).1
  exact hcy hy

/-- The mock backend responses of `llm_manager.py` all start with
`'['`, so the second-chance filter test `response.strip().lower() ==
'yes'` is never satisfied by them. -/
theorem query_model_ok_not_yes (m p : String) (k : Option String) (mt : Nat) (r : String)
    (h : query_model m p k mt = .ok r) : pyLower (pyStrip r) ≠ "yes" := by
  unfold query_model query_modelT at h
  by_cases h1 : is_api_key_required m = true ∧ pyFalsyOptStr k = true
  · rw [if_pos h1] at h
    exact Except.noConfusion h
  · rw [if_neg h1] at h
    by_cases h2 : pyStartsWithStr m "huggingface/" = true
    · rw [if_pos h2] at h
      have hr : r = query_huggingface (modelSuffix m) p mt := by
        have := Except.ok.inj h
        exact this.symm
      subst hr
      refine lower_strip_ne_yes _ '[' (by decide) ?_ (by decide)
      unfold query_huggingface
      rw [String.data_append, String.data_append]
      rw [show ("[HuggingFace ".data) = '[' :: "HuggingFace ".data from rfl]
      simp
    · rw [if_neg h2] at h
      by_cases h3 : pyStartsWithStr m "openai/" = true
      · rw [if_pos h3] at h
        have hr : r = query_openai (modelSuffix m) p k mt := by
          have := Except.ok.inj h
          exact this.symm
        subst hr
        refine lower_strip_ne_yes _ '[' (by decide) ?_ (by decide)
        unfold query_openai
        rw [String.data_append, String.data_append]
        rw [show ("[OpenAI ".data) = '[' :: "OpenAI ".data from rfl]
        simp
      · rw [if_neg h3] at h
        exact Except.noConfusion h

/-- The text searched by the literal pass of `_filter_by_keywords`:
the listing's title, description and requirements joined by single
spaces and lowercased (the source's
`f"{listing['title']} {listing['description']} {listing['requirements']}".lower()`). -/
def literalMatchText (l : Dict) : String :=
  pyLower (pyValStr (l.getD "title" .nil) ++ " " ++ pyValStr (l.getD "description" .nil) ++
    " " ++ pyValStr (l.getD "requirements" .nil))

/-- The claim's literal-match predicate: some comma-separated, stripped
and lowercased keyword is a substring of the concatenation of the
listing's title, description and requirements. -/
def literalKeywordMatch (keywords : String) (l : Dict) : Bool :=
  ((pySplitStr "," keywords).map (fun k => pyLower (pyStrip k))).any
    (fun kw => pyInStr kw (literalMatchText l))

/-- The second-chance prompt `_filter_by_keywords` sends for a
listing. -/
def listingPromptOf (keywords : String) (l : Dict) : String :=
  filterPrompt keywords (l.getD "title" .nil) (l.getD "description" .nil)
    (l.getD "requirements" .nil)

/-- A structured listing carrying the three fields the keyword filter
indexes. -/
def hasListingKeys (l : Dict) : Prop :=
  (l.lookup "title").isSome = true ∧ (l.lookup "description").isSome = true ∧
  (l.lookup "requirements").isSome = true

/-- The filter loop keeps exactly the literally-matching listings (the
mock backends never answer `"yes"`, and a model error drops the
listing), and consults the model exactly on the non-matching ones. -/
theorem filterLoop_eq (model_name : String) (api_key : Option String)
    (kws : List String) (keywords : String) :
    ∀ (listings : List Dict), (∀ l ∈ listings, hasListingKeys l) →
      filterLoop model_name api_key kws keywords listings =
        .ok (listings.filter (fun l => kws.any (fun kw => pyInStr kw (literalMatchText l))),
          (listings.filter
            (fun l => ! kws.any (fun kw => pyInStr kw (literalMatchText l)))).map
            (listingPromptOf keywords)) := by
  intro listings
  induction listings with
  | nil => intro _; rfl
  | cons l rest ih =>
    intro hwf
    obtain ⟨ht', hd', hr'⟩ := hwf l (by simp)
    obtain ⟨t, hT⟩ := Option.isSome_iff_exists.mp ht'
    obtain ⟨d, hD⟩ := Option.isSome_iff_exists.mp hd'
    obtain ⟨r, hR⟩ := Option.isSome_iff_exists.mp hr'
    have hrest := ih (fun x hx => hwf x (by simp [hx]))
    have htext : literalMatchText l =
        pyLower (pyValStr t ++ " " ++ pyValStr d ++ " " ++ pyValStr r) := by
      simp [literalMatchText, Dict.getD, hT, hD, hR]
    have hprompt : listingPromptOf keywords l = filterPrompt keywords t d r := by
      simp [listingPromptOf, Dict.getD, hT, hD, hR]
    unfold filterLoop
    simp only [Dict.item, hT, hD, hR]
    by_cases hmatch : kws.any (fun kw =>
      pyInStr kw (pyLower (pyValStr t ++ " " ++ pyValStr d ++ " " ++ pyValStr r))) = true
    · rw [if_pos hmatch, hrest]
      simp [List.filter_cons, htext, hmatch]
    · rw [if_neg hmatch]
      cases hq : query_model model_name (filterPrompt keywords t d r) api_key with
      | ok response =>
        have hny := query_model_ok_not_yes _ _ _ _ _ hq
        simp [hrest, hny, List.filter_cons, htext, hmatch, hprompt]
      | error e =>
        simp [hrest, List.filter_cons, htext, hmatch, hprompt]

/-- C5: in `_filter_by_keywords` the keywords string is split on
commas, each term stripped and lowercased; a listing is kept
immediately — contributing no model prompt — exactly when some term is
a case-insensitive literal substring of the space-joined concatenation
of its title, description and requirements (with the mock backends a
non-matching listing is never kept, since no mock response is `"yes"`
and a model error drops the listing); the returned list is the literal
filter of the input, hence a subsequence of it (subset, order
preserved). -/
theorem claim_C5_keyword_filter (listings : List Dict) (keywords model_name : String)
    (api_key : Option String)
    (hwf : ∀ l ∈ listings, hasListingKeys l) :
    filter_by_keywordsT listings keywords model_name api_key =
      .ok (listings.filter (literalKeywordMatch keywords),
        (listings.filter (fun l => ! literalKeywordMatch keywords l)).map
          (listingPromptOf keywords)) ∧
    (listings.filter (literalKeywordMatch keywords)).Sublist listings := by
  refine ⟨?_, List.filter_sublist _⟩
  unfold filter_by_keywordsT
  exact filterLoop_eq model_name api_key
    ((pySplitStr "," keywords).map (fun k => pyLower (pyStrip k))) keywords listings hwf

/-- Witness for C5: a `"Python Developer"` listing is kept by keyword
`"python"` with no model consultation. -/
theorem claim_C5_witness :
    filter_by_keywordsT
        [[("title", PyVal.str "Python Developer"), ("description", PyVal.str "Build APIs"),
          ("requirements", PyVal.str "None")]]
        "python, remote" "huggingface/gpt2" none =
      .ok ([[("title", PyVal.str "Python Developer"), ("description", PyVal.str "Build APIs"),
        ("requirements", PyVal.str "None")]], []) := by
  have h := (claim_C5_keyword_filter
    [[("title", PyVal.str "Python Developer"), ("description", PyVal.str "Build APIs"),
      ("requirements", PyVal.str "None")]] "python, remote" "huggingface/gpt2" none
    (by
      intro l hl
      rw [List.mem_singleton] at hl
      subst hl
      exact ⟨rfl, rfl, rfl⟩)).1
  rw [h]
  rfl

/-! ## Claim C2 -/

/-- C2: the claim is the code's evident intent, but the code breaks
it.  When structuring a listing fails (here: the selected model
requires an API key and none is given, so `query_model` raises), the
`except` handler of `_process_listings` degrades the listing to
`{title, url, description}` — but that degraded dictionary has no
`requirements` (nor `location`, `company`, `experience_level`) key,
and `_filter_by_keywords` then indexes `listing['requirements']`
outside any `try`, so the whole batch fails with a `KeyError` instead
of completing: one bad listing does fail the batch. -/
theorem claim_C2_degraded_listing_keyerror :
    process_listings ⟨fun _ => none, fun _ _ => none⟩ "openai/gpt-3.5-turbo" none
        [⟨"Engineer", some "https://acme.com/j/1",
          "An engineering role building systems.", "<li>"⟩] =
      [[("title", PyVal.str "Engineer"), ("url", PyVal.str "https://acme.com/j/1"),
        ("description", PyVal.str "An engineering role building systems.")]] ∧
    filter_by_keywords
        [[("title", PyVal.str "Engineer"), ("url", PyVal.str "https://acme.com/j/1"),
          ("description", PyVal.str "An engineering role building systems.")]]
        "python" "openai/gpt-3.5-turbo" none = .error (.keyError "requirements") := by
  exact ⟨rfl, rfl⟩

/-! ## Claim C1 -/

/-- The oracle refuting the claimed strategy order: the web search
yields a validated careers URL and the URL patterns also yield a
validated, reachable URL; the code answers with the search result,
although the claim's order (model first, then patterns, then search)
requires the pattern result. -/
def netC1 : Net where
  headStatus := fun u => if u = "https://acme.com/careers" then some 200 else none
  getRaw := fun u =>
    if u = "https://acme.example/careers" then some (200, "p1")
    else if u = "https://acme.com/careers" then some (200, "p2")
    else none
  googleResults := fun q => if q = "acme careers" then ["https://acme.example/careers"] else []
  soup := fun _ => ⟨none, "jobs and careers", false, false⟩

/-- C1, counterexample: with `netC1`, the model-based strategy fails
(the mock backend answer is not a URL), the pattern strategy succeeds
with the validated URL `https://acme.com/careers` — so under the
claimed order (model, then patterns, then search) the Locator would
return the pattern URL — yet `find_career_page` returns the
*web-search* result `https://acme.example/careers`: the source's order
is `[_google_search, _direct_url_construction, _llm_based_search]`. -/
theorem claim_C1_counterexample :
    find_career_page netC1 "acme" "huggingface/gpt2" none =
      some "https://acme.example/careers" ∧
    llm_based_search netC1 "acme" "huggingface/gpt2" none = none ∧
    direct_url_construction netC1 "acme" = some "https://acme.com/careers" ∧
    validate_career_page netC1 "https://acme.com/careers" = true ∧
    ("https://acme.example/careers" : String) ≠ "https://acme.com/careers" := by
  refine ⟨rfl, rfl, rfl, rfl, by decide⟩

/-- A strategy of `find_career_page` fails when it produces no truthy,
validated candidate. -/
def stratFails (net : Net) (r : Option String) : Prop :=
  ∀ u, r = some u → pyTruthyStr u = true → validate_career_page net u = false

/-- A truthy, validated head strategy result is returned. -/
theorem findCareerLoop_step_ok (net : Net) (r : Option String)
    (rest : List (Option String)) (u : String) (hr : r = some u)
    (ht : pyTruthyStr u = true) (hv : validate_career_page net u = true) :
    findCareerLoop net (r :: rest) = some u := by
  subst hr
  show (if pyTruthyStr u = true then
          (if validate_career_page net u = true then some u else findCareerLoop net rest)
        else findCareerLoop net rest) = some u
  rw [if_pos ht, if_pos hv]

/-- A failing head strategy is skipped. -/
theorem findCareerLoop_step_fail (net : Net) (r : Option String)
    (rest : List (Option String)) (hf : stratFails net r) :
    findCareerLoop net (r :: rest) = findCareerLoop net rest := by
  cases r with
  | none => rfl
  | some u =>
    show (if pyTruthyStr u = true then
            (if validate_career_page net u = true then some u else findCareerLoop net rest)
          else findCareerLoop net rest) = findCareerLoop net rest
    by_cases ht : pyTruthyStr u = true
    · rw [if_pos ht]
      rw [if_neg (by simp [hf u rfl ht])]
    · rw [if_neg ht]

/-- C1, amended: the Locator tries its strategies in the source's
strict order — first the web search, then the pattern-generated URLs,
then the model-suggested URL — and returns the first truthy candidate
that also passes `validate_career_page`; a later strategy is consulted
only if every earlier one failed to produce a truthy validated
candidate, and the Locator reports `None` when all three fail. -/
theorem claim_C1_amended (net : Net) (company model_name : String)
    (api_key : Option String) :
    (∀ u, google_search net company = some u → pyTruthyStr u = true →
      validate_career_page net u = true →
      find_career_page net company model_name api_key = some u) ∧
    (stratFails net (google_search net company) →
      ∀ u, direct_url_construction net company = some u → pyTruthyStr u = true →
        validate_career_page net u = true →
        find_career_page net company model_name api_key = some u) ∧
    (stratFails net (google_search net company) →
      stratFails net (direct_url_construction net company) →
      ∀ u, llm_based_search net company model_name api_key = some u →
        pyTruthyStr u = true → validate_career_page net u = true →
        find_career_page net company model_name api_key = some u) ∧
    (stratFails net (google_search net company) →
      stratFails net (direct_url_construction net company) →
      stratFails net (llm_based_search net company model_name api_key) →
      find_career_page net company model_name api_key = none) := by
  refine ⟨?_, ?_, ?_, ?_⟩
  · intro u hg ht hv
    unfold find_career_page
    exact findCareerLoop_step_ok net _ _ u hg ht hv
  · intro hgf u hd ht hv
    unfold find_career_page
    rw [findCareerLoop_step_fail net _ _ hgf]
    exact findCareerLoop_step_ok net _ _ u hd ht hv
  · intro hgf hdf u hl ht hv
    unfold find_career_page
    rw [findCareerLoop_step_fail net _ _ hgf, findCareerLoop_step_fail net _ _ hdf]
    exact findCareerLoop_step_ok net _ _ u hl ht hv
  · intro hgf hdf hlf
    unfold find_career_page
    rw [findCareerLoop_step_fail net _ _ hgf, findCareerLoop_step_fail net _ _ hdf,
      findCareerLoop_step_fail net _ _ hlf]
    rfl

/-- The oracle for the C1 witness: the web search finds nothing, the
first pattern URL is reachable and its page validates as a careers
page. -/
def netC1w : Net where
  headStatus := fun u => if u = "https://acme.com/careers" then some 200 else none
  getRaw := fun u => if u = "https://acme.com/careers" then some (200, "careers page")
    else none
  googleResults := fun _ => []
  soup := fun t =>
    if t = "careers page" then ⟨some "Careers at Acme", "open positions and jobs", false, false⟩
    else ⟨none, "", false, false⟩

/-- Witness for C1's amended theorem: with the search strategy failing,
the Locator falls through to the first validated pattern URL. -/
theorem claim_C1_witness :
    find_career_page netC1w "acme" "huggingface/gpt2" none =
      some "https://acme.com/careers" :=
  (claim_C1_amended netC1w "acme" "huggingface/gpt2" none).2.1
    (by
      intro u hu ht
      rw [show google_search netC1w "acme" = none from rfl] at hu
      exact Option.noConfusion hu)
    "https://acme.com/careers" (by decide) (by decide) (by decide)
